import Mathlib

/-!
A verification development for the university_chatbot repository.

The definitions below are a shallow embedding of the retrieval-augmented
chatbot core: `EnhancedSyllabusRAGChatbot.load_data`, `enhance_query`,
`retrieve_context`, `generate_enhanced_response` and `chat` from
`chatbot_script.py`, and `get_default_questions` /
`generate_followup_questions` from `app.py`.

Modelling conventions:
- JSON scalar values that flow through Python f-strings and truthiness
  tests are modelled by `CVal` (absent key, null, string, integer);
  Python truthiness and `str()` rendering are made explicit.
- Per the repository's data model, string-typed fields (course names,
  outcome texts, topics, book titles, FAQ text) are modelled as Lean
  `String`s; `str.lower`/`str.upper` and the `\w`, `\d`, `\s` regex
  classes are modelled at ASCII scope, which covers the repository's data.
- Effectful collaborators (the sentence-transformer embedder plus the
  Chroma nearest-neighbour query, the Gemini generator, the LangChain
  retriever and LLM call of app.py) are modelled as explicit function
  parameters; per the spec the embedder is deterministic, so the
  embed-then-query composite is a function of the (enhanced) query text.
- A raised Python exception is an `Except .error`; code paths that cannot
  raise are total.
-/

namespace UniBot

/-- A Python/JSON scalar as the chatbot's metadata dictionaries hold it:
`absent` stands for a missing key, `null` for JSON null, `s`/`n` for
string and integer values. -/
inductive CVal where
  | absent
  | null
  | s (v : String)
  | n (v : Int)
  deriving DecidableEq, Repr

/-- Python truthiness of a `CVal` (a missing key reads as `None` via
`dict.get`): `None`, `""` and `0` are falsy. -/
def CVal.truthy : CVal → Bool
  | .absent => false
  | .null => false
  | .s v => v ≠ ""
  | .n v => v ≠ 0

/-- Python `str()` of the value, as an f-string renders it
(`str(None) = "None"`). `absent` renders as `""`; the code only renders
values obtained with a `dict.get` default or checked truthy first. -/
def CVal.render : CVal → String
  | .absent => ""
  | .null => "None"
  | .s v => v
  | .n v => toString v

/-- `metadata.get(key, default)` followed by f-string rendering: the
default replaces a missing key only (a stored null renders as "None"). -/
def CVal.getD (v : CVal) (d : String) : String :=
  match v with
  | .absent => d
  | x => x.render

/-- `metadata.get(key, default)` at value level, as the semester-map
summaries store it. -/
def CVal.orDefault (v : CVal) (d : String) : CVal :=
  match v with
  | .absent => .s d
  | x => x

/-- The `course_outcomes` metadata value: absent key, a JSON array of
strings, or some non-array value (the code's `isinstance(outcomes, list)`
check rejects the latter). -/
inductive OutVal where
  | absent
  | list (xs : List String)
  | other
  deriving DecidableEq, Repr

/-- True exactly when the value is a non-empty JSON array, the code's
`if outcomes and isinstance(outcomes, list)` test. -/
def OutVal.isNonemptyList : OutVal → Bool
  | .list (_ :: _) => true
  | _ => false

/-- The `metadata` object of one course record. -/
structure Metadata where
  course_code : CVal
  course_name : CVal
  semester : CVal
  credits : CVal
  category : CVal
  prerequisites : CVal
  course_outcomes : OutVal
  deriving DecidableEq, Repr

/-- `course.get('metadata', {})`: an empty dict, every key absent. -/
def defaultMeta : Metadata :=
  ⟨.absent, .absent, .absent, .absent, .absent, .absent, .absent⟩

/-- The `topics` value of one syllabus unit: absent key, an array of
strings (joined with ", "), or a scalar rendered directly. -/
inductive Topics where
  | absent
  | strs (xs : List String)
  | val (v : CVal)
  deriving DecidableEq, Repr

/-- One element of a course's `syllabus` array: either not a dict (the
code logs and skips it) or a unit record. -/
inductive SylUnit where
  | notDict
  | unit (unit_number : CVal) (title : CVal) (topics : Topics)
  deriving DecidableEq, Repr

/-- `course.get('books', {})` with `books.get('textbooks', [])` and
`books.get('reference_books', [])`. -/
structure Books where
  textbooks : List String
  reference_books : List String
  deriving DecidableEq, Repr

/-- One record of `syllabus_data.json`: `metadata = none` stands for a
course dict with no `"metadata"` key. -/
structure CourseRecord where
  metadata : Option Metadata
  syllabus : List SylUnit
  books : Books
  deriving DecidableEq, Repr

/-- One entry of `self.chunks_data`. -/
structure Chunk where
  content : String
  metadata : Metadata
  chunk_type : String
  deriving DecidableEq, Repr

/-- One per-course summary stored under a semester key of
`self.semester_course_map`. The code stores the raw (truthy, hence
string) `course_code`/`course_name` values and the `.get`-defaulted
credits and category. -/
structure CourseSummary where
  course_code : String
  course_name : String
  credits : CVal
  category : CVal
  deriving DecidableEq, Repr

/-- `self.semester_course_map`: a Python dict in key insertion order. -/
abbrev SemMap := List (String × List CourseSummary)

/-- `self.course_details`: course_code value → the record's metadata (the
source stores the whole course dict; only its `['metadata']` is ever
consumed downstream, so the metadata is what the model keeps). -/
abbrev CourseDetails := List (CVal × Metadata)

/-- Python `sep.join(xs)`. -/
def pyJoin (sep : String) : List String → String
  | [] => ""
  | [x] => x
  | x :: rest => x ++ sep ++ pyJoin sep rest

/-- `if sem not in map: map[sem] = []` then `map[sem].append(entry)`:
dict key insertion order is preserved, values accumulate in order. -/
def semInsert (m : SemMap) (k : String) (v : CourseSummary) : SemMap :=
  if (List.any m (fun p => p.1 = k)) then
    List.map (fun p => if p.1 = k then (p.1, p.2 ++ [v]) else p) m
  else m ++ [(k, [v])]

/-- Dict lookup in `self.semester_course_map`. -/
def semFind (m : SemMap) (k : String) : Option (List CourseSummary) :=
  (List.find? (fun p => p.1 = k) m).map (fun p => p.2)

/-- Dict insertion for `self.course_details` (a repeated key overwrites
its value, keeping the first key's position). -/
def detailsInsert (d : CourseDetails) (k : CVal) (v : Metadata) : CourseDetails :=
  if (List.any d (fun p => p.1 = k)) then
    List.map (fun p => if p.1 = k then (p.1, v) else p) d
  else d ++ [(k, v)]

/-- Dict lookup in `self.course_details`. -/
def detailsFind (d : CourseDetails) (k : CVal) : Option Metadata :=
  (List.find? (fun p => p.1 = k) d).map (fun p => p.2)

/-- A raised Python exception (load_data can raise KeyError from the
`course['metadata']['course_code']` comprehension). -/
inductive PyErr where
  | keyError
  deriving DecidableEq, Repr

/-- `{course['metadata']['course_code']: course for course in data}`
(chatbot_script.py line 67): direct indexing, so a record without a
`metadata` key or whose metadata lacks the `course_code` key raises
KeyError before any record is skipped. -/
def buildCourseDetails (records : List CourseRecord) : Except PyErr CourseDetails :=
  List.foldlM
    (fun acc c =>
      match c.metadata with
      | none => .error .keyError
      | some m =>
        match m.course_code with
        | .absent => .error .keyError
        | k => .ok (detailsInsert acc k m))
    [] records

/-- The skip test `if not all([course_code, course_name, semester])`,
with each value read by `metadata.get`. -/
def passCheck (m : Metadata) : Bool :=
  m.course_code.truthy && m.course_name.truthy && m.semester.truthy

/-- The content of the outcomes chunk:
`f"The course outcomes for {course_name} ({course_code}) are: {'; '.join(outcomes)}"`. -/
def outcomesContent (name code : String) (xs : List String) : String :=
  "The course outcomes for " ++ name ++ " (" ++ code ++ ") are: " ++ pyJoin "; " xs

/-- Rendering of `unit.get('topics', 'Not specified')` after the
`isinstance(topics, list)` join. -/
def topicsStr : Topics → String
  | .absent => "Not specified"
  | .strs xs => pyJoin ", " xs
  | .val v => v.render

/-- One syllabus-unit chunk, `none` for a unit that is not a dict
(the code warns and continues). -/
def unitChunk (m : Metadata) (name code : String) : SylUnit → Option Chunk
  | .notDict => none
  | .unit unum title topics =>
    let ts := topicsStr topics
    let unumS := unum.getD ""
    let titleS := title.getD "N/A"
    some ⟨"Syllabus for " ++ name ++ " (" ++ code ++ "), Unit " ++ unumS ++
          " titled '" ++ titleS ++ "': " ++ ts, m, "syllabus_unit"⟩

/-- The books chunk, emitted only when a textbook or reference list is
non-empty; an empty list renders as "None listed". -/
def booksChunks (m : Metadata) (name code : String) (b : Books) : List Chunk :=
  if b.textbooks.isEmpty && b.reference_books.isEmpty then []
  else
    let tb := if b.textbooks.isEmpty then "None listed" else pyJoin ", " b.textbooks
    let rb := if b.reference_books.isEmpty then "None listed" else pyJoin ", " b.reference_books
    [⟨"Reading materials for " ++ name ++ " (" ++ code ++ "). Textbooks: " ++ tb ++
      ". Reference Books: " ++ rb ++ ".", m, "books"⟩]

/-- The outcomes chunk(s) of one record: at most one, and only when
`course_outcomes` is a non-empty array. -/
def outcomesChunks (m : Metadata) (name code : String) : List Chunk :=
  match m.course_outcomes with
  | .list xs => if xs.isEmpty then [] else [⟨outcomesContent name code xs, m, "outcomes"⟩]
  | _ => []

/-- All chunks `load_data` appends for one (non-skipped) course record,
in source order: overview, outcomes, syllabus units, books. -/
def recordChunks (c : CourseRecord) : List Chunk :=
  let m := c.metadata.getD defaultMeta
  let name := m.course_name.render
  let code := m.course_code.render
  let sem := m.semester.render
  let overview : Chunk :=
    ⟨"Course Overview for " ++ name ++ " (" ++ code ++ "): This is a Semester " ++
     sem ++ " '" ++ m.category.getD "N/A" ++ "' course with " ++ m.credits.getD "N/A" ++
     " credits. Prerequisites: " ++ m.prerequisites.getD "Not specified" ++ ".",
     m, "overview"⟩
  overview :: (outcomesChunks m name code ++
    c.syllabus.filterMap (unitChunk m name code) ++ booksChunks m name code c.books)

/-- The per-course summary appended under the record's semester key. -/
def recordSummary (m : Metadata) : CourseSummary :=
  { course_code := m.course_code.render
    course_name := m.course_name.render
    credits := m.credits.orDefault "N/A"
    category := m.category.orDefault "N/A" }

/-- Whether the record passes the skip test (its `metadata.get` defaults
to an empty dict). -/
def passRec (c : CourseRecord) : Bool :=
  passCheck (c.metadata.getD defaultMeta)

/-- The semester key `str(semester)` of a record. -/
def semKey (c : CourseRecord) : String :=
  (c.metadata.getD defaultMeta).semester.render

/-- The summary a record contributes to the semester map. -/
def recSummary (c : CourseRecord) : CourseSummary :=
  recordSummary (c.metadata.getD defaultMeta)

/-- One iteration of the `for course in restructured_data` loop of
`load_data`: skip the record when a required field is falsy, otherwise
append its semester summary and its chunks. -/
def loadStep (acc : List Chunk × SemMap) (c : CourseRecord) : List Chunk × SemMap :=
  if passRec c then
    (acc.1 ++ recordChunks c, semInsert acc.2 (semKey c) (recSummary c))
  else acc

/-- What `load_data` leaves in `self.course_details`, `self.chunks_data`
and `self.semester_course_map`. -/
structure LoadResult where
  course_details : CourseDetails
  chunks_data : List Chunk
  semester_course_map : SemMap

/-- `EnhancedSyllabusRAGChatbot.load_data` restricted to the syllabus
records (the FAQ/concept file is loaded separately into `faq_data` and
`concept_mapping` and contributes nothing to `chunks_data` or
`semester_course_map`): first the `course_details` comprehension, which
can raise KeyError, then the record loop, which cannot raise. -/
def load_data (records : List CourseRecord) : Except PyErr LoadResult := do
  let details ← buildCourseDetails records
  let (chunks, semMap) := records.foldl loadStep ([], [])
  return ⟨details, chunks, semMap⟩

/-- The chunks of the records that pass the skip test, in order. -/
def chunksFor (records : List CourseRecord) : List Chunk :=
  ((records.filter passRec).map recordChunks).flatten

/-- The semester map accumulated over the records that pass the skip
test, in order. -/
def semMapFor (records : List CourseRecord) : SemMap :=
  (records.filter passRec).foldl (fun sm c => semInsert sm (semKey c) (recSummary c)) []

/-- Python `str.lower` at ASCII scope (`chr.lower()` maps A-Z to a-z). -/
def pyCharLower (c : Char) : Char :=
  if 'A' ≤ c && c ≤ 'Z' then Char.ofNat (c.toNat + 32) else c

/-- Python `str.upper` at ASCII scope. -/
def pyCharUpper (c : Char) : Char :=
  if 'a' ≤ c && c ≤ 'z' then Char.ofNat (c.toNat - 32) else c

/-- `query.lower()`. -/
def pyLower (s : String) : String := ⟨s.data.map pyCharLower⟩

/-- `query.upper()`. -/
def pyUpper (s : String) : String := ⟨s.data.map pyCharUpper⟩

/-- The regex class `\w` (ASCII scope): letters, digits, underscore. -/
def isWordChar (c : Char) : Bool :=
  c.isAlpha || c.isDigit || c = '_'

/-- The regex class `\s`: Python whitespace. -/
def pyIsSpace (c : Char) : Bool :=
  c = ' ' || c = '\t' || c = '\n' || c = '\r' || c = '\x0b' || c = '\x0c'

/-- A `\b` boundary directly before a word character: start of string or
a non-word character on the left. -/
def boundaryOk (prev : Option Char) : Bool :=
  match prev with
  | none => true
  | some c => !isWordChar c

/-- The `\s*(\d+)\b` tail of the semester pattern: greedy whitespace,
then at least one digit, then a word boundary. Returns the digit group. -/
def semDigits (l : List Char) : Option String :=
  let rest := l.dropWhile pyIsSpace
  let ds := rest.takeWhile Char.isDigit
  if ds.isEmpty then none
  else
    match rest.drop ds.length with
    | [] => some ⟨ds⟩
    | c :: _ => if isWordChar c then none else some ⟨ds⟩

/-- One anchored attempt of `\bsem(?:ester)?\s*(\d+)\b`: the optional
`ester` is tried greedily first, then dropped on failure, exactly as a
backtracking engine does. -/
def matchSemAt (prev : Option Char) (l : List Char) : Option String :=
  if boundaryOk prev then
    match l with
    | 's' :: 'e' :: 'm' :: rest =>
      (match rest with
       | 'e' :: 's' :: 't' :: 'e' :: 'r' :: rest2 =>
         (semDigits rest2).orElse (fun _ => semDigits rest)
       | _ => semDigits rest)
    | _ => none
  else none

/-- Leftmost search for the semester pattern: try every start position
from the left, tracking the previous character for the `\b` test. -/
def searchSemAux : Option Char → List Char → Option String
  | _, [] => none
  | prev, c :: rest =>
    (matchSemAt prev (c :: rest)).orElse (fun _ => searchSemAux (some c) rest)

/-- `re.search(r'\bsem(?:ester)?\s*(\d+)\b', s)`, returning group 1. -/
def searchSem (s : String) : Option String := searchSemAux none s.data

/-- The `[A-Z&]` class of the course-code pattern. -/
def isUpperAmp (c : Char) : Bool :=
  ('A' ≤ c && c ≤ 'Z') || c = '&'

/-- One anchored attempt of `\b\d{2}[A-Z&]{2,}\d{4}[A-Z]?\b`: two digits,
a greedy run of at least two capital letters or ampersands, four digits,
an optional capital (greedy, dropped if the final boundary fails), then a
word boundary. Returns the whole match. -/
def matchCodeAt (prev : Option Char) (l : List Char) : Option String :=
  if boundaryOk prev then
    match l with
    | d1 :: d2 :: rest =>
      if d1.isDigit && d2.isDigit then
        let letters := rest.takeWhile isUpperAmp
        if letters.length < 2 then none
        else
          match rest.drop letters.length with
          | a :: b :: c :: d :: rest3 =>
            if a.isDigit && b.isDigit && c.isDigit && d.isDigit then
              match rest3 with
              | [] => some ⟨d1 :: d2 :: (letters ++ [a, b, c, d])⟩
              | e :: rest4 =>
                if 'A' ≤ e && e ≤ 'Z' then
                  match rest4 with
                  | [] => some ⟨d1 :: d2 :: (letters ++ [a, b, c, d, e])⟩
                  | f :: _ =>
                    if isWordChar f then none
                    else some ⟨d1 :: d2 :: (letters ++ [a, b, c, d, e])⟩
                else if isWordChar e then none
                else some ⟨d1 :: d2 :: (letters ++ [a, b, c, d])⟩
            else none
          | _ => none
      else none
    | _ => none
  else none

/-- Leftmost search for the course-code pattern. -/
def searchCodeAux : Option Char → List Char → Option String
  | _, [] => none
  | prev, c :: rest =>
    (matchCodeAt prev (c :: rest)).orElse (fun _ => searchCodeAux (some c) rest)

/-- `re.search(r'\b\d{2}[A-Z&]{2,}\d{4}[A-Z]?\b', s)`, whole match. -/
def searchCode (s : String) : Option String := searchCodeAux none s.data

/-- `pat in s` on lists of characters: `pat` occurs contiguously in `s`. -/
def listInfix (pat : List Char) : List Char → Bool
  | [] => pat.isEmpty
  | c :: rest => pat.isPrefixOf (c :: rest) || listInfix pat rest

/-- Python's substring test `pat in s`. -/
def strContains (s pat : String) : Bool := listInfix pat.data s.data

/-- The reference tables `enhance_query` consults (built at ingestion,
read-only afterwards): `self.semester_course_map`, `self.course_details`
and `self.concept_mapping` (a dict in insertion order). -/
structure BotState where
  semester_course_map : SemMap
  course_details : CourseDetails
  concept_mapping : List (String × List String)

/-- The terms rule 1 contributes: the course names of the matched
semester, in map insertion order, when the digit group is a key. -/
def semTerms (st : BotState) (query_lower : String) : List String :=
  match searchSem query_lower with
  | some semNum =>
    match semFind st.semester_course_map semNum with
    | some courses => courses.map (fun c => c.course_name)
    | none => []
  | none => []

/-- The terms rule 2 contributes: the matched course code's
`metadata.get('course_name', '')` when the code is a key of
`course_details`. -/
def codeTerms (st : BotState) (query : String) : List String :=
  match searchCode (pyUpper query) with
  | some code =>
    match detailsFind st.course_details (.s code) with
    | some m => [m.course_name.getD ""]
    | none => []
  | none => []

/-- The terms rule 3 contributes: for every concept whose lowercase form
occurs in the lowercase query, the first two related course identifiers. -/
def conceptTerms (st : BotState) (query_lower : String) : List String :=
  st.concept_mapping.foldl
    (fun acc p =>
      if strContains query_lower (pyLower p.1) then acc ++ p.2.take 2 else acc)
    []

/-- `EnhancedSyllabusRAGChatbot.enhance_query`: gather the three rules'
terms in order and append them to the query separated by spaces, or
return the query unchanged when no term was gathered. -/
def enhance_query (st : BotState) (query : String) : String :=
  let query_lower := pyLower query
  let enhanced_terms :=
    semTerms st query_lower ++ codeTerms st query ++ conceptTerms st query_lower
  if enhanced_terms.isEmpty then query
  else query ++ " " ++ pyJoin " " enhanced_terms

/-- Python `<=` on strings: lexicographic comparison of code points. -/
def listStrLe : List Char → List Char → Bool
  | [], _ => true
  | _ :: _, [] => false
  | a :: as, b :: bs =>
    if a.toNat < b.toNat then true
    else if a.toNat = b.toNat then listStrLe as bs
    else false

/-- Python string `<=` (what `sorted` orders by). -/
def pyStrLe (s t : String) : Bool := listStrLe s.data t.data

/-- One step of insertion sort with respect to `pyStrLe`. -/
def insertSorted (x : String) : List String → List String
  | [] => [x]
  | y :: ys => if pyStrLe x y then x :: y :: ys else y :: insertSorted x ys

/-- Sorting a list of strings in ascending `pyStrLe` order; on a
duplicate-free input this output is the unique sorted arrangement, so it
agrees with Python's (stable) `sorted`. -/
def sortStrings (l : List String) : List String := l.foldr insertSorted []

/-- The metadata of one retrieved document, holding the keys the query
path consults (`source`, `course_code`, `course_name`); the stored values
are strings (`create_enhanced_vector_store` stringifies every metadata
value), `none` stands for a missing key. -/
structure DocMeta where
  source : Option String
  course_code : Option String
  course_name : Option String
  deriving DecidableEq, Repr

/-- One element of the list `retrieve_context` returns:
`{'content': doc, 'metadata': meta, 'distance': dist}`. Distances are
floats in the source; they are carried opaquely as rationals and never
inspected by the modelled paths. -/
structure RetDoc where
  content : String
  metadata : DocMeta
  distance : Rat
  deriving DecidableEq, Repr

/-- An active Chroma collection, abstracted to its query behaviour: the
spec requires the embedder to be deterministic for identical text, so
embedding the enhanced query and running the nearest-neighbour search is
a function of the query text and `n_results`. -/
structure Collection where
  query : String → Nat → List RetDoc

/-- The error `retrieve_context` raises when no collection is active
(the source raises `ValueError("Vector store not initialized.")`, the
spec's `NotInitializedError`). -/
inductive RetrieveError where
  | notInitialized
  deriving DecidableEq, Repr

/-- `EnhancedSyllabusRAGChatbot.retrieve_context`: raise when
`self.collection` is unset, otherwise embed the enhanced query and
query the collection. -/
def retrieve_context (collection : Option Collection) (st : BotState)
    (query : String) (n_results : Nat) : Except RetrieveError (List RetDoc) :=
  match collection with
  | none => .error .notInitialized
  | some c => .ok (c.query (enhance_query st query) n_results)

/-- One labelled context block:
`f"Context Snippet (Source: {...}, Course: {...}):\n{doc['content']}"`. -/
def ctxSnippet (d : RetDoc) : String :=
  "Context Snippet (Source: " ++ d.metadata.source.getD "unknown" ++
  ", Course: " ++ d.metadata.course_code.getD "N/A" ++ "):\n" ++ d.content

/-- `context_text = "\n---\n".join(context_parts)`. -/
def contextText (docs : List RetDoc) : String :=
  pyJoin "\n---\n" (docs.map ctxSnippet)

/-- The default prompt template of `generate_enhanced_response`
(whitespace as the Python triple-quoted f-string renders it). -/
def defaultPrompt (context_text query : String) : String :=
  "You are a precise and helpful academic assistant for a university syllabus. Your task is to answer the student's question concisely based ONLY on the provided context.\n\n        Context Information:\n        ---\n        "
  ++ context_text ++
  "\n        ---\n\n        Student's Question: "
  ++ query ++
  "\n\n        Instructions:\n        1. Synthesize a coherent, friendly answer from the provided context. Do not just list the raw snippets.\n        2. If the context contains a list of courses, present them clearly in a list format.\n        3. If specific details like textbooks, prerequisites, or outcomes are available in the context, integrate them naturally into your response.\n        4. If the information to answer the question is NOT in the context, you MUST explicitly state that you cannot find the information in the provided documents.\n        5. Be direct and clear in your response.\n\n        Answer:"

/-- The narrower syllabus-only prompt template. -/
def narrowPrompt (context_text query : String) : String :=
  "You are a precise academic assistant. A student is asking specifically for the syllabus for a course. Based ONLY on the provided context, answer their question.\n\n            Context Information:\n            ---\n            "
  ++ context_text ++
  "\n            ---\n\n            Student's Question: "
  ++ query ++
  "\n\n            Instructions:\n            1. Find the syllabus units and topics in the context.\n            2. List ONLY the syllabus units with their topics. Format them clearly with unit numbers and titles.\n            3. CRITICAL: Do NOT include the Course Overview, prerequisites, course outcomes, credits, or book recommendations in your answer.\n            4. If the syllabus unit information is not available in the context, explicitly state that.\n\n            Answer:"

/-- The keyword list of the intent switch. -/
def syllabusKeywords : List String :=
  ["book", "overview", "credit", "outcome", "prerequisite"]

/-- The prompt `generate_enhanced_response` sends to the model: the
narrow template exactly when the lowercased query contains "syllabus"
and none of the keywords, otherwise the default template. -/
def selectedPrompt (query : String) (context_docs : List RetDoc) : String :=
  let context_text := contextText context_docs
  let query_lower := pyLower query
  if strContains query_lower "syllabus" &&
     !(syllabusKeywords.any (fun k => strContains query_lower k)) then
    narrowPrompt context_text query
  else defaultPrompt context_text query

/-- The outcome of `self.model.generate_content(prompt)`: a completion
text, or a raised exception with its `str(e)` message. -/
inductive GenResult where
  | ok (text : String)
  | raise (msg : String)
  deriving DecidableEq, Repr

/-- `EnhancedSyllabusRAGChatbot.generate_enhanced_response`, with the
Gemini call abstracted as a function of the composed prompt: return the
completion, or map a raised exception to a fixed administrator message
when its text contains "API key not valid" and otherwise to the apology
f-string that embeds `str(e)`. -/
def generate_enhanced_response (gen : String → GenResult) (query : String)
    (context_docs : List RetDoc) : String :=
  match gen (selectedPrompt query context_docs) with
  | .ok text => text
  | .raise e =>
    if strContains e "API key not valid" then
      "Sorry, there is an issue with the server's API key configuration. Please contact the administrator."
    else
      "Sorry, I encountered an error generating the response: " ++ e

/-- The formatted entry a retrieved document contributes to
`relevant_courses`: `f"{code} - {name}"` for a truthy `course_code`,
nothing otherwise (`metadata.get('course_name')` renders `None` when the
key is missing). -/
def docCourseEntry (d : RetDoc) : Option String :=
  match d.metadata.course_code with
  | some code =>
    if code = "" then none
    else some (code ++ " - " ++ (d.metadata.course_name.getD "None"))
  | none => none

/-- `sorted(list(set(...)))` over the per-document entries: the distinct
entries in ascending string order (the set's own iteration order is
immaterial once sorted). -/
def relevantCourses (docs : List RetDoc) : List String :=
  sortStrings (docs.filterMap docCourseEntry).dedup

/-- What `chat` returns. -/
structure ChatResult where
  query : String
  answer : String
  context_used : Nat
  relevant_courses : List String
  deriving DecidableEq, Repr

/-- `EnhancedSyllabusRAGChatbot.chat`: retrieve, generate, and collect
sorted distinct course labels of the context documents. -/
def chat (collection : Option Collection) (st : BotState)
    (gen : String → GenResult) (query : String) (n_context : Nat) :
    Except RetrieveError ChatResult := do
  let context_docs ← retrieve_context collection st query n_context
  let response := generate_enhanced_response gen query context_docs
  return ⟨query, response, context_docs.length, relevantCourses context_docs⟩

/-- One turn of the caller-supplied chat history,
`{type: user|ai, message}` per the data model. -/
structure ChatTurn where
  type : String
  message : String
  deriving DecidableEq, Repr

/-- `app.get_default_questions`. -/
def get_default_questions : List String :=
  ["What courses are offered in Engineering?",
   "What is the fee for an MBA?",
   "What are the eligibility criteria for B.Tech?",
   "Tell me about the scholarship policy",
   "How do I apply for a Ph.D.?"]

/-- `next((item['message'] for item in reversed(chat_history) if
item['type'] == 'user'), None)`. -/
def lastUserMessage (history : List ChatTurn) : Option String :=
  (history.reverse.find? (fun t => t.type = "user")).map (fun t => t.message)

/-- A Python value as `ast.literal_eval` can produce it, as far as the
follow-up validation inspects it: a string, a list, or anything else. -/
inductive PyLit where
  | str (s : String)
  | list (xs : List PyLit)
  | other

/-- `isinstance(q, str)`. -/
def PyLit.asStr : PyLit → Option String
  | .str s => some s
  | _ => none

/-- `isinstance(v, list) and all(isinstance(q, str) for q in v)`,
returning the strings. -/
def asStringList : PyLit → Option (List String)
  | .list xs => xs.mapM PyLit.asStr
  | _ => none

/-- The outcome of the guarded block of `generate_followup_questions`
(the LLM call followed by `ast.literal_eval` on its content): a parsed
value, a parse failure (`ValueError`/`SyntaxError`/`TypeError`), or any
other exception — the latter two are caught by the `except` clauses. -/
inductive LLMOutcome where
  | parsed (v : PyLit)
  | parseError
  | exn

/-- The outcome of `vector_store_retriever.get_relevant_documents`,
which runs OUTSIDE the try block: the retrieved documents'
`page_content` strings, or a raised exception (which propagates). -/
inductive RetrievalOutcome where
  | docs (contents : List String)
  | exn

/-- An exception escaping `generate_followup_questions`. -/
inductive AppError where
  | raised
  deriving DecidableEq, Repr

/-- The follow-up prompt template of `generate_followup_questions`
(whitespace as the Python triple-quoted f-string renders it). -/
def followupPrompt (context : String) : String :=
  "\n    Based on the provided context from a university admissions guide, suggest 4 short, relevant follow-up questions a prospective student might ask next.\n    CRITICAL: The questions MUST be answerable using ONLY the information in the context below. Do not suggest questions if the answer is not in the text.\n    Return ONLY a Python-parseable list of strings. For example: [\"Question 1?\", \"Question 2?\", \"Question 3?\", \"Question 4?\"]\n\n    Context:\n    ---\n    "
  ++ context ++
  "\n    ---\n\n    Suggested Questions (Python list of strings):\n    "

/-- `app.generate_followup_questions`, with the module-global retriever
and the LLM-plus-parse step abstracted as parameters: defaults when the
history is empty, no retriever is configured, or `if not
last_user_message` fires — a falsiness test, so both a missing user turn
(`None`) and an empty-string latest user message fall back; then
retrieval (whose exceptions are NOT caught); then the guarded LLM/parse
step, whose failures all fall back to the defaults. -/
def generate_followup_questions (retrieverConfigured : Bool)
    (retrieve : String → RetrievalOutcome) (llm : String → LLMOutcome)
    (chat_history : List ChatTurn) : Except AppError (List String) :=
  if chat_history.isEmpty || !retrieverConfigured then .ok get_default_questions
  else
    match lastUserMessage chat_history with
    | none => .ok get_default_questions
    | some msg =>
      if msg = "" then .ok get_default_questions
      else
        match retrieve msg with
        | .exn => .error .raised
        | .docs contents =>
          match llm (followupPrompt (pyJoin "\n\n" contents)) with
          | .parsed v =>
            match asStringList v with
            | some qs => .ok qs
            | none => .ok get_default_questions
          | .parseError => .ok get_default_questions
          | .exn => .ok get_default_questions

/-- The strings `ns` occur in `s` contiguously and in order, each after
the previous one ends. -/
def StrChain : String → List String → Prop
  | _, [] => True
  | s, n :: ns => ∃ pre suf, s = pre ++ n ++ suf ∧ StrChain suf ns

/-! ## Helper lemmas -/

theorem data_append_eq (s t : String) : (s ++ t).data = s.data ++ t.data :=
  String.data_append s t

theorem str_append_assoc (a b c : String) : a ++ b ++ c = a ++ (b ++ c) := by
  apply String.ext
  simp [String.data_append, List.append_assoc]

theorem str_append_empty (a : String) : a ++ "" = a := by
  apply String.ext
  simp [String.data_append]

theorem listInfix_iff (pat : List Char) :
    ∀ s, listInfix pat s = true ↔ pat <:+: s := by
  intro s
  induction s with
  | nil =>
    simp only [listInfix, List.isEmpty_iff]
    constructor
    · intro h; simp [h]
    · intro h; exact List.eq_nil_of_infix_nil h
  | cons c rest ih =>
    simp only [listInfix, Bool.or_eq_true, List.isPrefixOf_iff_prefix, ih,
      List.infix_cons_iff]

theorem strContains_of_infix {s pat : String} (h : pat.data <:+: s.data) :
    strContains s pat = true := by
  unfold strContains
  exact (listInfix_iff pat.data s.data).mpr h

theorem strContains_append_left (q t : String) :
    strContains (q ++ t) q = true := by
  apply strContains_of_infix
  rw [data_append_eq]
  exact (List.prefix_append q.data t.data).isInfix

theorem strContains_self (q : String) : strContains q q = true := by
  have := strContains_append_left q ""
  rwa [str_append_empty] at this

theorem infix_pyJoin {x : String} {xs : List String} (sep : String)
    (h : x ∈ xs) : x.data <:+: (pyJoin sep xs).data := by
  induction xs with
  | nil => cases h
  | cons y ys ih =>
    rcases List.mem_cons.mp h with rfl | hmem
    · cases ys with
      | nil => exact List.infix_refl _
      | cons z zs =>
        show x.data <:+: (x ++ sep ++ pyJoin sep (z :: zs)).data
        rw [data_append_eq, data_append_eq]
        exact ⟨[], sep.data ++ (pyJoin sep (z :: zs)).data, by simp⟩
    · cases ys with
      | nil => cases hmem
      | cons z zs =>
        have tail := ih hmem
        show x.data <:+: (y ++ sep ++ pyJoin sep (z :: zs)).data
        rw [data_append_eq, data_append_eq]
        obtain ⟨s, t, hst⟩ := tail
        exact ⟨y.data ++ sep.data ++ s, t, by simp [← hst, List.append_assoc]⟩

/-! ## Claim theorems -/

/-- C3: for every query string and every requested result count,
`retrieve_context` fails with the not-initialized error exactly when no
collection is active (`self.collection` unset), and with an active
collection it returns the query results without failing. -/
theorem retrieve_context_initialization (st : BotState) (query : String) (n : Nat) :
    retrieve_context none st query n = .error .notInitialized ∧
    ∀ c : Collection, retrieve_context (some c) st query n =
      .ok (c.query (enhance_query st query) n) :=
  ⟨rfl, fun _ => rfl⟩

/-- C4 counterexample: when the generator raises with a message that is
not a credential failure, the "generic apology" returned to the user
embeds the raw error string, contradicting "without the raw error
string". -/
theorem generation_error_leaks_raw_message :
    generate_enhanced_response (fun _ => .raise "Deadline Exceeded") "hi" [] =
      "Sorry, I encountered an error generating the response: Deadline Exceeded" ∧
    strContains
      (generate_enhanced_response (fun _ => .raise "Deadline Exceeded") "hi" [])
      "Deadline Exceeded" = true ∧
    strContains "Deadline Exceeded" "API key not valid" = false := by
  refine ⟨rfl, ?_, by decide⟩
  decide

/-- C4 (amended): when the generator call raises,
`generate_enhanced_response` returns a message instead of propagating:
the administrator-facing message when the error text contains
"API key not valid", and otherwise an apology that embeds the raw error
string. -/
theorem generation_error_messages (gen : String → GenResult) (query : String)
    (docs : List RetDoc) (e : String)
    (h : gen (selectedPrompt query docs) = .raise e) :
    generate_enhanced_response gen query docs =
      if strContains e "API key not valid" then
        "Sorry, there is an issue with the server's API key configuration. Please contact the administrator."
      else "Sorry, I encountered an error generating the response: " ++ e := by
  unfold generate_enhanced_response
  rw [h]

theorem generation_error_messages_witness :
    ((fun _ : String => GenResult.raise "boom") (selectedPrompt "q" []) =
      .raise "boom") ∧
    generate_enhanced_response (fun _ => .raise "boom") "q" [] =
      (if strContains "boom" "API key not valid" then
        "Sorry, there is an issue with the server's API key configuration. Please contact the administrator."
      else "Sorry, I encountered an error generating the response: " ++ "boom") :=
  ⟨rfl, generation_error_messages (fun _ => .raise "boom") "q" [] "boom" rfl⟩

/-- C2 counterexample: a history whose follow-up generation succeeds
(the generator's output parses as a list of strings) for which the
suggester does not return 4 strings: the parsed single-element list is
returned as-is. -/
theorem followup_parsed_list_not_four :
    generate_followup_questions true (fun _ => .docs ["Fees are listed."])
      (fun _ => .parsed (.list [.str "What about hostel fees?"]))
      [⟨"user", "fees?"⟩] = .ok ["What about hostel fees?"] ∧
    ¬ (["What about hostel fees?"] : List String).length = 4 :=
  ⟨rfl, by decide⟩

/-- C2 (amended): when the follow-up generation succeeds — the history
reaches the generator (non-empty history, retriever configured, a truthy
latest user message) and the generator's output parses as a list of
strings — the suggester returns exactly that parsed list, whatever its
length (the source never validates that the generator produced 4
questions). -/
theorem followup_returns_parsed_list (rc : Bool)
    (r : String → RetrievalOutcome) (l : String → LLMOutcome)
    (h : List ChatTurn) (msg : String) (cs : List String) (v : PyLit)
    (qs : List String)
    (hne : h.isEmpty = false) (hrc : rc = true)
    (hmsg : lastUserMessage h = some msg) (hmne : msg ≠ "")
    (hr : r msg = .docs cs)
    (hl : l (followupPrompt (pyJoin "\n\n" cs)) = .parsed v)
    (hv : asStringList v = some qs) :
    generate_followup_questions rc r l h = .ok qs := by
  simp [generate_followup_questions, hne, hrc, hmsg, hmne, hr, hl, hv]

theorem followup_returns_parsed_list_witness :
    asStringList (.list [.str "A?", .str "B?"]) = some ["A?", "B?"] ∧
    generate_followup_questions true (fun _ => .docs ["ctx"])
      (fun _ => .parsed (.list [.str "A?", .str "B?"]))
      [⟨"user", "hello"⟩] = .ok ["A?", "B?"] :=
  ⟨rfl,
   followup_returns_parsed_list true (fun _ => .docs ["ctx"])
     (fun _ => .parsed (.list [.str "A?", .str "B?"])) [⟨"user", "hello"⟩]
     "hello" ["ctx"] (.list [.str "A?", .str "B?"]) ["A?", "B?"]
     rfl rfl rfl (by decide) rfl rfl rfl⟩

/-- C7 counterexample: an exception in the retrieval step — which the
source runs OUTSIDE its try/except — escapes
`generate_followup_questions`, contradicting "never raises an exception
past its call boundary" for "any exception occurs". -/
theorem followup_retrieval_exception_escapes :
    generate_followup_questions true (fun _ => .exn)
      (fun _ => .parsed (.list [])) [⟨"user", "hi"⟩] = .error .raised :=
  rfl

/-- C7 (amended): the suggester returns exactly the fixed 5-item default
list when the history is empty, no retriever is configured, no user turn
exists, or the generator/parse step fails in any way (parse error, a
non-list-of-strings value, or any exception inside the guarded block);
an exception from the retrieval step itself, however, is raised before
the try block and propagates past the call boundary. -/
theorem followup_fallback_defaults :
    get_default_questions.length = 5 ∧
    (∀ rc r l, generate_followup_questions rc r l [] = .ok get_default_questions) ∧
    (∀ r l h, generate_followup_questions false r l h = .ok get_default_questions) ∧
    (∀ rc r l h, lastUserMessage h = none →
      generate_followup_questions rc r l h = .ok get_default_questions) ∧
    (∀ rc r l h msg cs, lastUserMessage h = some msg → r msg = .docs cs →
      (l (followupPrompt (pyJoin "\n\n" cs)) = .parseError →
        generate_followup_questions rc r l h = .ok get_default_questions) ∧
      (l (followupPrompt (pyJoin "\n\n" cs)) = .exn →
        generate_followup_questions rc r l h = .ok get_default_questions) ∧
      (∀ v, l (followupPrompt (pyJoin "\n\n" cs)) = .parsed v →
        asStringList v = none →
        generate_followup_questions rc r l h = .ok get_default_questions)) := by
  refine ⟨rfl, ?_, ?_, ?_, ?_⟩
  · intro rc r l; rfl
  · intro r l h; simp [generate_followup_questions]
  · intro rc r l h hmsg
    unfold generate_followup_questions
    rcases he : h.isEmpty with _ | _
    · rcases hrc : rc with _ | _
      · simp
      · simp [hmsg]
    · simp
  · intro rc r l h msg cs hmsg hr
    refine ⟨?_, ?_, ?_⟩
    · intro hl
      rcases he : h.isEmpty with _ | _
      · rcases hrc : rc with _ | _
        · simp [generate_followup_questions, he]
        · by_cases hm : msg = ""
          · simp [generate_followup_questions, he, hmsg, hm]
          · simp [generate_followup_questions, he, hmsg, hm, hr, hl]
      · simp [generate_followup_questions, he]
    · intro hl
      rcases he : h.isEmpty with _ | _
      · rcases hrc : rc with _ | _
        · simp [generate_followup_questions, he]
        · by_cases hm : msg = ""
          · simp [generate_followup_questions, he, hmsg, hm]
          · simp [generate_followup_questions, he, hmsg, hm, hr, hl]
      · simp [generate_followup_questions, he]
    · intro v hl hv
      rcases he : h.isEmpty with _ | _
      · rcases hrc : rc with _ | _
        · simp [generate_followup_questions, he]
        · by_cases hm : msg = ""
          · simp [generate_followup_questions, he, hmsg, hm]
          · simp [generate_followup_questions, he, hmsg, hm, hr, hl, hv]
      · simp [generate_followup_questions, he]

theorem concept_foldl_nil (ql : String) (l : List (String × List String))
    (acc : List String)
    (h : ∀ p ∈ l, strContains ql (pyLower p.1) = false) :
    l.foldl (fun acc p =>
      if strContains ql (pyLower p.1) then acc ++ p.2.take 2 else acc) acc = acc := by
  induction l generalizing acc with
  | nil => rfl
  | cons p rest ih =>
    rw [List.foldl_cons, h p (List.mem_cons_self p rest)]
    exact ih acc (fun q hq => h q (List.mem_cons_of_mem p hq))

/-- C9: when none of the three enhancement rules fires — the semester
pattern does not match, any course-code-shaped token found is not a key
of `course_details`, and no concept key occurs in the lowercased query —
`enhance_query` returns the query unchanged; in particular re-enhancing
an already-enhanced query that matches no new rule leaves it as it is. -/
theorem enhance_query_identity (st : BotState) (q : String)
    (h1 : searchSem (pyLower q) = none)
    (h2 : ∀ code, searchCode (pyUpper q) = some code →
      detailsFind st.course_details (.s code) = none)
    (h3 : ∀ p ∈ st.concept_mapping, strContains (pyLower q) (pyLower p.1) = false) :
    enhance_query st q = q := by
  have e1 : semTerms st (pyLower q) = [] := by
    unfold semTerms; rw [h1]
  have e2 : codeTerms st q = [] := by
    unfold codeTerms
    cases hc : searchCode (pyUpper q) with
    | none => rfl
    | some code => simp [h2 code hc]
  have e3 : conceptTerms st (pyLower q) = [] := by
    unfold conceptTerms
    exact concept_foldl_nil (pyLower q) st.concept_mapping [] h3
  simp [enhance_query, e1, e2, e3]

theorem enhance_query_identity_witness :
    searchSem (pyLower "what are the library timings?") = none ∧
    enhance_query
      ⟨[("3", [⟨"23BS1101", "Physics", .s "4", .s "BS"⟩])],
       [(.s "23BS1101",
         ⟨.s "23BS1101", .s "Physics", .s "3", .s "4", .s "BS", .absent, .absent⟩)],
       [("machine learning", ["23CS4501", "23CS4502"])]⟩
      "what are the library timings?" = "what are the library timings?" :=
  ⟨rfl,
   enhance_query_identity _ _ rfl
     (fun code hc => by
       rw [show searchCode (pyUpper "what are the library timings?") = none from rfl] at hc
       exact Option.noConfusion hc)
     (by decide)⟩

theorem strchain_join (sep : String) (rest : List String) :
    ∀ (ns : List String) (pre : String),
      StrChain (pre ++ pyJoin sep (ns ++ rest)) ns := by
  intro ns
  induction ns with
  | nil => intro pre; trivial
  | cons n ms ih =>
    intro pre
    cases hmr : ms ++ rest with
    | nil =>
      obtain ⟨hms, _⟩ := List.append_eq_nil.mp hmr
      refine ⟨pre, "", ?_, ?_⟩
      · rw [str_append_empty]
        show pre ++ pyJoin sep (n :: (ms ++ rest)) = pre ++ n
        rw [hmr]
        rfl
      · rw [hms]; trivial
    | cons z zs =>
      refine ⟨pre, sep ++ pyJoin sep (ms ++ rest), ?_, ih sep⟩
      show pre ++ pyJoin sep (n :: (ms ++ rest)) = pre ++ n ++ (sep ++ pyJoin sep (ms ++ rest))
      rw [hmr]
      show pre ++ (n ++ sep ++ pyJoin sep (z :: zs)) = pre ++ n ++ (sep ++ pyJoin sep (z :: zs))
      rw [str_append_assoc n sep, str_append_assoc pre n]

/-- C8: for every query with a semester reference whose digit group is a
key of the semester map, `enhance_query` returns a string containing the
original query and every course name of that semester, in map insertion
order. -/
theorem enhance_query_semester_names (st : BotState) (q semNum : String)
    (courses : List CourseSummary)
    (h1 : searchSem (pyLower q) = some semNum)
    (h2 : semFind st.semester_course_map semNum = some courses) :
    strContains (enhance_query st q) q = true ∧
    StrChain (enhance_query st q) (courses.map (fun c => c.course_name)) := by
  have hsem : semTerms st (pyLower q) = courses.map (fun c => c.course_name) := by
    unfold semTerms
    rw [h1]
    simp [h2]
  have hdef : enhance_query st q =
      (if (semTerms st (pyLower q) ++ codeTerms st q ++
            conceptTerms st (pyLower q)).isEmpty then q
       else q ++ " " ++ pyJoin " " (semTerms st (pyLower q) ++ codeTerms st q ++
              conceptTerms st (pyLower q))) := rfl
  by_cases hempty : (semTerms st (pyLower q) ++ codeTerms st q ++
      conceptTerms st (pyLower q)).isEmpty = true
  · rw [hdef, if_pos hempty]
    have hnil : semTerms st (pyLower q) = [] := by
      rcases List.append_eq_nil.mp (List.isEmpty_iff.mp hempty) with ⟨h', _⟩
      exact (List.append_eq_nil.mp h').1
    rw [hnil] at hsem
    rw [← hsem]
    exact ⟨strContains_self q, trivial⟩
  · rw [hdef, if_neg hempty]
    constructor
    · rw [str_append_assoc]
      exact strContains_append_left q _
    · rw [← hsem, List.append_assoc]
      exact strchain_join " " (codeTerms st q ++ conceptTerms st (pyLower q))
        (semTerms st (pyLower q)) (q ++ " ")

theorem enhance_query_semester_names_witness :
    searchSem (pyLower "what are the subjects in sem 3") = some "3" ∧
    (strContains
      (enhance_query
        ⟨[("3", [⟨"23CS2101", "Data Structures", .s "3", .s "PC"⟩,
                 ⟨"23CS2102", "Discrete Mathematics", .s "3", .s "BS"⟩,
                 ⟨"23CS2103", "Digital Logic Design", .s "3", .s "PC"⟩])],
         [], []⟩
        "what are the subjects in sem 3")
      "what are the subjects in sem 3" = true ∧
     StrChain
      (enhance_query
        ⟨[("3", [⟨"23CS2101", "Data Structures", .s "3", .s "PC"⟩,
                 ⟨"23CS2102", "Discrete Mathematics", .s "3", .s "BS"⟩,
                 ⟨"23CS2103", "Digital Logic Design", .s "3", .s "PC"⟩])],
         [], []⟩
        "what are the subjects in sem 3")
      ["Data Structures", "Discrete Mathematics", "Digital Logic Design"]) :=
  ⟨rfl,
   enhance_query_semester_names
     ⟨[("3", [⟨"23CS2101", "Data Structures", .s "3", .s "PC"⟩,
              ⟨"23CS2102", "Discrete Mathematics", .s "3", .s "BS"⟩,
              ⟨"23CS2103", "Digital Logic Design", .s "3", .s "PC"⟩])],
      [], []⟩
     "what are the subjects in sem 3" "3"
     [⟨"23CS2101", "Data Structures", .s "3", .s "PC"⟩,
      ⟨"23CS2102", "Discrete Mathematics", .s "3", .s "BS"⟩,
      ⟨"23CS2103", "Digital Logic Design", .s "3", .s "PC"⟩]
     rfl (by decide)⟩

theorem infix_append_right {x M : List Char} (L : List Char) (h : x <:+: M) :
    x <:+: L ++ M := by
  obtain ⟨s, t, hst⟩ := h
  refine ⟨L ++ s, t, ?_⟩
  simp only [List.append_assoc] at hst ⊢
  rw [hst]

theorem strContains_outcomes (name code x : String) (xs : List String)
    (h : x ∈ xs) : strContains (outcomesContent name code xs) x = true := by
  apply strContains_of_infix
  unfold outcomesContent
  simp only [data_append_eq, List.append_assoc]
  exact infix_append_right _ (infix_append_right _ (infix_append_right _
    (infix_append_right _ (infix_append_right _ (infix_pyJoin "; " h)))))

theorem filter_units_outcomes (m : Metadata) (name code : String)
    (sy : List SylUnit) :
    (sy.filterMap (unitChunk m name code)).filter
      (fun ch => ch.chunk_type == "outcomes") = [] := by
  rw [List.filter_eq_nil_iff]
  intro a ha
  obtain ⟨u, _, hu⟩ := List.mem_filterMap.mp ha
  cases u with
  | notDict => simp [unitChunk] at hu
  | unit un ti tp =>
    simp only [unitChunk, Option.some.injEq] at hu
    rw [← hu]
    simp

theorem filter_books_outcomes (m : Metadata) (name code : String) (b : Books) :
    (booksChunks m name code b).filter
      (fun ch => ch.chunk_type == "outcomes") = [] := by
  unfold booksChunks
  split
  · rfl
  · simp

theorem filter_outcomes_self (m : Metadata) (name code : String) :
    (outcomesChunks m name code).filter
      (fun ch => ch.chunk_type == "outcomes") = outcomesChunks m name code := by
  unfold outcomesChunks
  cases m.course_outcomes with
  | absent => rfl
  | other => rfl
  | list xs =>
    cases xs with
    | nil => rfl
    | cons y ys => simp

theorem filter_recordChunks_outcomes (c : CourseRecord) :
    (recordChunks c).filter (fun ch => ch.chunk_type == "outcomes") =
      outcomesChunks (c.metadata.getD defaultMeta)
        ((c.metadata.getD defaultMeta).course_name.render)
        ((c.metadata.getD defaultMeta).course_code.render) := by
  show (recordChunks c).filter (fun ch => ch.chunk_type == "outcomes") = _
  unfold recordChunks
  rw [List.filter_cons]
  simp only [List.filter_append, filter_units_outcomes, filter_books_outcomes,
    filter_outcomes_self]
  simp

/-- C5: for every course record, an outcomes chunk is among its emitted
chunks exactly when `course_outcomes` is a non-empty array, in which case
it is exactly one chunk whose content joins the outcomes with "; " and
contains every outcome string (`load_data` appends `recordChunks` for
every record it processes). -/
theorem outcomes_chunk_emission (c : CourseRecord) :
    ((recordChunks c).filter (fun ch => ch.chunk_type == "outcomes") = [] ↔
      (c.metadata.getD defaultMeta).course_outcomes.isNonemptyList = false) ∧
    (∀ xs, (c.metadata.getD defaultMeta).course_outcomes = .list xs → xs ≠ [] →
      (recordChunks c).filter (fun ch => ch.chunk_type == "outcomes") =
        [⟨outcomesContent ((c.metadata.getD defaultMeta).course_name.render)
            ((c.metadata.getD defaultMeta).course_code.render) xs,
          c.metadata.getD defaultMeta, "outcomes"⟩] ∧
      ∀ x ∈ xs,
        strContains
          (outcomesContent ((c.metadata.getD defaultMeta).course_name.render)
            ((c.metadata.getD defaultMeta).course_code.render) xs) x = true) := by
  rw [filter_recordChunks_outcomes]
  constructor
  · unfold outcomesChunks OutVal.isNonemptyList
    cases (c.metadata.getD defaultMeta).course_outcomes with
    | absent => simp
    | other => simp
    | list xs =>
      cases xs with
      | nil => simp
      | cons y ys => simp
  · intro xs hxs hne
    constructor
    · unfold outcomesChunks
      rw [hxs]
      simp [hne]
    · intro x hx
      exact strContains_outcomes _ _ x xs hx

theorem append_ne_of_take_ne {a b : List Char} (x y : List Char) (n : Nat)
    (ha : n ≤ a.length) (hb : n ≤ b.length) (hne : a.take n ≠ b.take n) :
    a ++ x ≠ b ++ y := by
  intro h
  apply hne
  rw [← List.take_append_of_le_length ha, ← List.take_append_of_le_length hb, h]

set_option maxRecDepth 4000 in
theorem narrow_ne_default (ct q : String) :
    narrowPrompt ct q ≠ defaultPrompt ct q := by
  intro h
  have hd := congrArg String.data h
  simp only [narrowPrompt, defaultPrompt, data_append_eq] at hd
  revert hd
  simp only [List.append_assoc]
  apply append_ne_of_take_ne _ _ 20
  · decide
  · decide
  · decide

/-- C6: the prompt composer selects the narrow syllabus-only template
exactly when the lowercased query contains "syllabus" and none of
{book, overview, credit, outcome, prerequisite}; otherwise the default
template; in particular "give me the syllabus for 23BS1101" selects the
narrow template and "what is the syllabus overview and credits for
23BS1101" the default one. -/
theorem prompt_intent_switch :
    (∀ (q : String) (docs : List RetDoc),
      (selectedPrompt q docs = narrowPrompt (contextText docs) q ↔
        (strContains (pyLower q) "syllabus" = true ∧
         ∀ k ∈ syllabusKeywords, strContains (pyLower q) k = false))) ∧
    selectedPrompt "give me the syllabus for 23BS1101" [] =
      narrowPrompt (contextText []) "give me the syllabus for 23BS1101" ∧
    selectedPrompt "what is the syllabus overview and credits for 23BS1101" [] =
      defaultPrompt (contextText [])
        "what is the syllabus overview and credits for 23BS1101" := by
  refine ⟨?_, by rfl, by rfl⟩
  intro q docs
  unfold selectedPrompt
  by_cases hc : (strContains (pyLower q) "syllabus" &&
      !(syllabusKeywords.any (fun k => strContains (pyLower q) k))) = true
  · rw [if_pos hc]
    simp only [Bool.and_eq_true, Bool.not_eq_true', List.any_eq_false] at hc
    constructor
    · intro _
      exact ⟨hc.1, fun k hk => Bool.eq_false_iff.mpr (hc.2 k hk)⟩
    · intro _
      rfl
  · rw [if_neg hc]
    constructor
    · intro h
      exact absurd h.symm (narrow_ne_default (contextText docs) q)
    · intro ⟨h1, h2⟩
      refine absurd ?_ hc
      simp only [Bool.and_eq_true, Bool.not_eq_true', List.any_eq_false]
      exact ⟨h1, fun k hk => Bool.eq_false_iff.mp (h2 k hk)⟩

theorem foldl_loadStep_eq (records : List CourseRecord) :
    ∀ (cs : List Chunk) (sm : SemMap),
      records.foldl loadStep (cs, sm) =
        (cs ++ ((records.filter passRec).map recordChunks).flatten,
         (records.filter passRec).foldl
           (fun m c => semInsert m (semKey c) (recSummary c)) sm) := by
  induction records with
  | nil => intro cs sm; simp
  | cons c rest ih =>
    intro cs sm
    rw [List.foldl_cons, List.filter_cons]
    by_cases h : passRec c
    · simp only [h, if_pos]
      show rest.foldl loadStep (loadStep (cs, sm) c) = _
      rw [show loadStep (cs, sm) c =
            (cs ++ recordChunks c, semInsert sm (semKey c) (recSummary c)) by
          simp [loadStep, h]]
      rw [ih]
      simp [List.append_assoc]
    · simp only [h]
      show rest.foldl loadStep (loadStep (cs, sm) c) = _
      rw [show loadStep (cs, sm) c = (cs, sm) by simp [loadStep, h]]
      rw [ih]
      simp

theorem buildCourseDetails_ok (records : List CourseRecord)
    (h : ∀ c ∈ records, c.metadata.isSome = true ∧
      (c.metadata.getD defaultMeta).course_code ≠ CVal.absent) :
    ∃ d, buildCourseDetails records = .ok d := by
  unfold buildCourseDetails
  suffices h' : ∀ acc : CourseDetails,
      ∃ d, List.foldlM (fun acc c =>
        match c.metadata with
        | none => Except.error PyErr.keyError
        | some m =>
          match m.course_code with
          | .absent => Except.error PyErr.keyError
          | k => Except.ok (detailsInsert acc k m)) acc records = .ok d by
    exact h' []
  induction records with
  | nil => intro acc; exact ⟨acc, rfl⟩
  | cons c rest ih =>
    intro acc
    obtain ⟨h1, h2⟩ := h c (List.mem_cons_self c rest)
    obtain ⟨m, hm⟩ := Option.isSome_iff_exists.mp h1
    have hrest := fun c hc => h c (List.mem_cons_of_mem _ hc)
    rw [hm] at h2
    simp only [Option.getD_some] at h2
    rw [List.foldlM_cons, hm]
    cases hcc : m.course_code with
    | absent => exact absurd hcc h2
    | null =>
      simp only [hcc]
      exact ih hrest _
    | s v =>
      simp only [hcc]
      exact ih hrest _
    | n v =>
      simp only [hcc]
      exact ih hrest _

/-- C1 counterexample: a batch holding one record whose metadata has no
`course_code` key makes `load_data` raise KeyError (from the
`course_details` comprehension that runs before the skip check), so the
ingestion does not complete. -/
theorem load_data_keyerror_on_missing_code_key :
    load_data [⟨some ⟨.absent, .s "Physics", .s "1", .absent, .absent, .absent,
      .absent⟩, [], ⟨[], []⟩⟩] = .error .keyError := rfl

/-- C1 (amended): provided every record has a `metadata` dict with a
`course_code` key, ingestion completes without raising, and the chunk
output and the semester map are built from exactly the records whose
course_code, course_name and semester are all truthy — records missing
(falsy) any of the three are excluded from both. Without that proviso the
claim fails: a record lacking the `course_code` key raises KeyError. -/
theorem load_data_skips_invalid (records : List CourseRecord)
    (h : ∀ c ∈ records, c.metadata.isSome = true ∧
      (c.metadata.getD defaultMeta).course_code ≠ CVal.absent) :
    ∃ d, load_data records = .ok ⟨d, chunksFor records, semMapFor records⟩ := by
  obtain ⟨d, hd⟩ := buildCourseDetails_ok records h
  refine ⟨d, ?_⟩
  unfold load_data
  rw [hd, foldl_loadStep_eq]
  rfl

theorem load_data_skips_invalid_witness :
    (∀ c ∈ [(⟨some ⟨.s "CS101", .s "Intro to CS", .s "1", .s "4", .s "PC",
               .absent, .list ["Understand loops"]⟩, [], ⟨[], []⟩⟩ : CourseRecord),
             ⟨some ⟨.s "CS999", .null, .s "2", .absent, .absent, .absent,
               .absent⟩, [], ⟨[], []⟩⟩],
      c.metadata.isSome = true ∧
      (c.metadata.getD defaultMeta).course_code ≠ CVal.absent) ∧
    ∃ d, load_data
        [⟨some ⟨.s "CS101", .s "Intro to CS", .s "1", .s "4", .s "PC",
           .absent, .list ["Understand loops"]⟩, [], ⟨[], []⟩⟩,
         ⟨some ⟨.s "CS999", .null, .s "2", .absent, .absent, .absent,
           .absent⟩, [], ⟨[], []⟩⟩] =
      .ok ⟨d,
        chunksFor
          [⟨some ⟨.s "CS101", .s "Intro to CS", .s "1", .s "4", .s "PC",
             .absent, .list ["Understand loops"]⟩, [], ⟨[], []⟩⟩,
           ⟨some ⟨.s "CS999", .null, .s "2", .absent, .absent, .absent,
             .absent⟩, [], ⟨[], []⟩⟩],
        semMapFor
          [⟨some ⟨.s "CS101", .s "Intro to CS", .s "1", .s "4", .s "PC",
             .absent, .list ["Understand loops"]⟩, [], ⟨[], []⟩⟩,
           ⟨some ⟨.s "CS999", .null, .s "2", .absent, .absent, .absent,
             .absent⟩, [], ⟨[], []⟩⟩]⟩ :=
  ⟨by decide,
   load_data_skips_invalid
     [⟨some ⟨.s "CS101", .s "Intro to CS", .s "1", .s "4", .s "PC",
        .absent, .list ["Understand loops"]⟩, [], ⟨[], []⟩⟩,
      ⟨some ⟨.s "CS999", .null, .s "2", .absent, .absent, .absent,
        .absent⟩, [], ⟨[], []⟩⟩]
     (by decide)⟩

theorem listStrLe_trans : ∀ a b c : List Char,
    listStrLe a b = true → listStrLe b c = true → listStrLe a c = true := by
  intro a
  induction a with
  | nil => intro b c _ _; rfl
  | cons x xs ih =>
    intro b c h1 h2
    cases b with
    | nil => simp [listStrLe] at h1
    | cons y ys =>
      cases c with
      | nil => simp [listStrLe] at h2
      | cons z zs =>
        by_cases hxy : x.toNat < y.toNat
        · by_cases hyz : y.toNat < z.toNat
          · have hxz : x.toNat < z.toNat := Nat.lt_trans hxy hyz
            simp [listStrLe, hxz]
          · by_cases heyz : y.toNat = z.toNat
            · have hxz : x.toNat < z.toNat := heyz ▸ hxy
              simp [listStrLe, hxz]
            · simp [listStrLe, hyz, heyz] at h2
        · by_cases hexy : x.toNat = y.toNat
          · by_cases hyz : y.toNat < z.toNat
            · have hxz : x.toNat < z.toNat := hexy ▸ hyz
              simp [listStrLe, hxz]
            · by_cases heyz : y.toNat = z.toNat
              · have hxz : x.toNat = z.toNat := hexy.trans heyz
                have hxltz : ¬ x.toNat < z.toNat := by omega
                simp only [listStrLe, if_neg hxy, if_pos hexy] at h1
                simp only [listStrLe, if_neg hyz, if_pos heyz] at h2
                simp only [listStrLe, if_neg hxltz, if_pos hxz]
                exact ih ys zs h1 h2
              · simp [listStrLe, hyz, heyz] at h2
          · simp [listStrLe, hxy, hexy] at h1

theorem listStrLe_total : ∀ a b : List Char,
    listStrLe a b = true ∨ listStrLe b a = true := by
  intro a
  induction a with
  | nil => intro b; left; rfl
  | cons x xs ih =>
    intro b
    cases b with
    | nil => right; rfl
    | cons y ys =>
      rcases Nat.lt_trichotomy x.toNat y.toNat with h | h | h
      · left; simp [listStrLe, h]
      · have hlt : ¬ x.toNat < y.toNat := by omega
        have hlt' : ¬ y.toNat < x.toNat := by omega
        rcases ih ys with h' | h'
        · left; simp [listStrLe, hlt, h, h']
        · right; simp [listStrLe, hlt', h.symm, h']
      · right; simp [listStrLe, h]

theorem pyStrLe_trans {a b c : String} (h1 : pyStrLe a b = true)
    (h2 : pyStrLe b c = true) : pyStrLe a c = true :=
  listStrLe_trans a.data b.data c.data h1 h2

theorem pyStrLe_total (a b : String) : pyStrLe a b = true ∨ pyStrLe b a = true :=
  listStrLe_total a.data b.data

theorem perm_insertSorted (x : String) (l : List String) :
    (insertSorted x l).Perm (x :: l) := by
  induction l with
  | nil => exact List.Perm.refl _
  | cons y ys ih =>
    unfold insertSorted
    by_cases h : pyStrLe x y
    · rw [if_pos h]
    · rw [if_neg h]
      exact (List.Perm.cons y ih).trans (List.Perm.swap x y ys)

theorem pairwise_insertSorted (x : String) (l : List String)
    (h : l.Pairwise (fun a b => pyStrLe a b = true)) :
    (insertSorted x l).Pairwise (fun a b => pyStrLe a b = true) := by
  induction l with
  | nil => simp [insertSorted]
  | cons y ys ih =>
    rcases List.pairwise_cons.mp h with ⟨hy, hys⟩
    unfold insertSorted
    by_cases hxy : pyStrLe x y
    · rw [if_pos hxy]
      refine List.pairwise_cons.mpr ⟨?_, h⟩
      intro b hb
      rcases List.mem_cons.mp hb with rfl | hb'
      · exact hxy
      · exact pyStrLe_trans hxy (hy b hb')
    · rw [if_neg hxy]
      refine List.pairwise_cons.mpr ⟨?_, ih hys⟩
      intro b hb
      have hb2 := (perm_insertSorted x ys).mem_iff.mp hb
      rcases List.mem_cons.mp hb2 with heq | hbys
      · rw [heq]
        rcases pyStrLe_total x y with hx | hx
        · exact absurd hx hxy
        · exact hx
      · exact hy b hbys

theorem perm_sortStrings (l : List String) : (sortStrings l).Perm l := by
  induction l with
  | nil => exact List.Perm.refl _
  | cons x xs ih =>
    exact (perm_insertSorted _ _).trans (List.Perm.cons x ih)

theorem pairwise_sortStrings (l : List String) :
    (sortStrings l).Pairwise (fun a b => pyStrLe a b = true) := by
  induction l with
  | nil => simp [sortStrings]
  | cons x xs ih => exact pairwise_insertSorted x _ ih

/-- C10 counterexample: two retrieved documents sharing one course code
but carrying different course names yield two `relevant_courses` entries,
so the list does not hold one entry per distinct course code. -/
theorem relevant_courses_same_code_twice :
    relevantCourses
        [⟨"", ⟨some "syllabus", some "23BS1101", some "Engineering Physics"⟩, 0⟩,
         ⟨"", ⟨some "syllabus", some "23BS1101", some "Engineering Chemistry"⟩, 0⟩] =
      ["23BS1101 - Engineering Chemistry", "23BS1101 - Engineering Physics"] ∧
    (([⟨"", ⟨some "syllabus", some "23BS1101", some "Engineering Physics"⟩, 0⟩,
       ⟨"", ⟨some "syllabus", some "23BS1101", some "Engineering Chemistry"⟩, 0⟩] :
        List RetDoc).filterMap (fun d => d.metadata.course_code)).dedup =
      ["23BS1101"] := by
  constructor
  · rfl
  · rfl

/-- C10 (amended): for every retrieved context, `relevant_courses` is a
duplicate-free list sorted ascending by Python string order, holding one
entry per distinct `"<code> - <name>"` pair formed from documents with a
truthy `course_code` (and so excluding every document whose metadata has
none); distinct names under one code yield distinct entries. -/
theorem relevant_courses_sorted_distinct (docs : List RetDoc) :
    (relevantCourses docs).Pairwise (fun a b => pyStrLe a b = true) ∧
    (relevantCourses docs).Nodup ∧
    ∀ s, s ∈ relevantCourses docs ↔ ∃ d ∈ docs, docCourseEntry d = some s := by
  refine ⟨pairwise_sortStrings _, ?_, ?_⟩
  · exact (perm_sortStrings _).symm.nodup (List.nodup_dedup _)
  · intro s
    rw [relevantCourses, (perm_sortStrings _).mem_iff, List.mem_dedup,
      List.mem_filterMap]
